import Mathlib

/-!
Verification of the tensor-operation node catalogue
(`src/MachineLearning/CNTKComputationNetworkLib/LinearAlgebraNodes.h`).

Matrices are modelled shallowly as a pair of dimensions together with an
entry function (column indices address minibatch columns).  The element
type is an arbitrary commutative ring `α`, standing in for the C++
`ElemType` (float/double); concrete evaluations instantiate `α := ℤ`.
Operations of the external `Matrix<ElemType>` collaborator that the
nodes call (AssignSumOf, SumOfElements, MultiplyAndAdd, Reshape, ...)
are given their documented semantics; CNTK matrices are column-major,
so reshapes reinterpret the column-major linearisation.
-/

namespace CNTK

/-- A two-dimensional numeric array: row count, column count and an entry
function.  Entries outside the `rows × cols` range are irrelevant; `MatEq`
compares matrices only on the in-range entries. -/
structure Mat (α : Type) where
  rows : Nat
  cols : Nat
  entry : Nat → Nat → α

variable {α : Type} [CommRing α]

/-- Build a matrix from a list of rows (missing entries default to 0). -/
def Mat.ofLists (l : List (List α)) : Mat α :=
  ⟨l.length, (l.headD []).length, fun i j => ((l.getD i []).getD j 0)⟩

/-- Sum of `f 0 + f 1 + ... + f (n-1)`. -/
def sumUpTo (n : Nat) (f : Nat → α) : α :=
  match n with
  | 0 => 0
  | n+1 => sumUpTo n f + f n

/-- Extensional equality of matrices: same dimensions and same entries at
every in-range position. -/
def MatEq (A B : Mat α) : Prop :=
  A.rows = B.rows ∧ A.cols = B.cols ∧
    ∀ i < A.rows, ∀ j < A.cols, A.entry i j = B.entry i j

instance [DecidableEq α] (A B : Mat α) : Decidable (MatEq A B) := by
  unfold MatEq; infer_instance

/-- Elementwise sum (C++ `operator+=` on same-sized matrices). -/
def matAdd (A B : Mat α) : Mat α :=
  ⟨A.rows, A.cols, fun i j => A.entry i j + B.entry i j⟩

/-- Elementwise difference (C++ `operator-=` on same-sized matrices). -/
def matSub (A B : Mat α) : Mat α :=
  ⟨A.rows, A.cols, fun i j => A.entry i j - B.entry i j⟩

/-- Scalar multiple of a matrix. -/
def matScale (s : α) (A : Mat α) : Mat α :=
  ⟨A.rows, A.cols, fun i j => s * A.entry i j⟩

/-- Elementwise negation of a matrix. -/
def negMat (A : Mat α) : Mat α :=
  ⟨A.rows, A.cols, fun i j => - A.entry i j⟩

/-- The all-ones matrix (`ConstOnes(r, c, deviceId)` in the source). -/
def onesMat (r c : Nat) : Mat α :=
  ⟨r, c, fun _ _ => 1⟩

/-- The all-zeros matrix (a freshly zero-initialised gradient). -/
def zerosMat (r c : Nat) : Mat α :=
  ⟨r, c, fun _ _ => 0⟩

/-- Matrix product (`Matrix::AssignProductOf` / the product part of
`MultiplyAndAdd`). -/
def matMul (A B : Mat α) : Mat α :=
  ⟨A.rows, B.cols, fun i j => sumUpTo A.cols (fun k => A.entry i k * B.entry k j)⟩

/-- Transpose (`Matrix::AssignTransposeOf`, and the `transposeA/B` flags of
`MultiplyAndAdd`). -/
def transposeMat (A : Mat α) : Mat α :=
  ⟨A.cols, A.rows, fun i j => A.entry j i⟩

/-- `Matrix::ColumnSlice(startColumn, numCols)`. -/
def colSlice (A : Mat α) (start n : Nat) : Mat α :=
  ⟨A.rows, n, fun i j => A.entry i (start + j)⟩

/-- `Matrix::Reshaped(r, c)` / in-place `Reshape(r, c)`: CNTK matrices are
column-major, so the element at linear position `j * r + i` of the reshaped
matrix is the element at the same linear position of the original. -/
def reshapeColMajor (A : Mat α) (r c : Nat) : Mat α :=
  ⟨r, c, fun i j => A.entry ((j * r + i) % A.rows) ((j * r + i) / A.rows)⟩

/-- `MaskMissingColumnsToZero` on values / gradients: entries in columns
whose minibatch-layout slot is a gap (`valid j = false`) are set to zero;
`valid` is constantly `true` for a node without a minibatch layout. -/
def maskCols (A : Mat α) (valid : Nat → Bool) : Mat α :=
  ⟨A.rows, A.cols, fun i j => if valid j then A.entry i j else 0⟩

/-- `Matrix::SumOfElements` / `AssignSumOfElements`: the sum of all in-range
entries. -/
def matSum (A : Mat α) : α :=
  sumUpTo A.rows (fun i => sumUpTo A.cols (fun j => A.entry i j))

/-- Modelled from the spec: `Matrix::AssignSumOf(a, b)` is elementwise
addition where a 1×1 scalar, an N×1 column vector or a 1×M row vector
operand is implicitly broadcast to the other operand's shape
(the broadcast patterns of spec section 4.2, patterns 2 to 4); the source of
`Matrix::AssignSumOf` (the Math library) is not part of the sources at hand. -/
def assignSumOf (a b : Mat α) : Mat α :=
  ⟨max a.rows b.rows, max a.cols b.cols, fun i j =>
    a.entry (if a.rows = 1 then 0 else i) (if a.cols = 1 then 0 else j) +
    b.entry (if b.rows = 1 then 0 else i) (if b.cols = 1 then 0 else j)⟩

/-- Modelled from the spec: `Matrix::AssignDifferenceOf(a, b)` — elementwise
subtraction with the same implicit broadcast rules as `assignSumOf`. -/
def assignDifferenceOf (a b : Mat α) : Mat α :=
  ⟨max a.rows b.rows, max a.cols b.cols, fun i j =>
    a.entry (if a.rows = 1 then 0 else i) (if a.cols = 1 then 0 else j) -
    b.entry (if b.rows = 1 then 0 else i) (if b.cols = 1 then 0 else j)⟩

/-- Whether a node operation completed without raising an error. -/
def isOkE (r : Except String (Mat α)) : Bool :=
  match r with
  | .ok _ => true
  | .error _ => false

/-- The error message of a failed node operation, if any. -/
def errMsg (r : Except String (Mat α)) : Option String :=
  match r with
  | .ok _ => none
  | .error e => some e

/-- `PlusNode::EvaluateThisNode` (LinearAlgebraNodes.h, lines 101-145):
the five-branch broadcast pattern table of Plus.  `hasMBLayout` is the
node's `m_pMBLayout` being non-null (checked by the tiling branch). -/
def PlusNode.evaluate (in0 in1 : Mat α) (hasMBLayout : Bool) :
    Except String (Mat α) :=
  if (in0.rows = in1.rows ∧ in0.cols = in1.cols) ∨
      ((in0.rows = 1 ∨ in1.rows = 1) ∧ in0.cols = in1.cols) then
    .ok (assignSumOf in0 in1)
  else if in0.cols = 1 ∧ in1.rows % in0.rows = 0 then
    .ok (reshapeColMajor
      (assignSumOf in0 (reshapeColMajor in1 in0.rows (in1.rows * in1.cols / in0.rows)))
      (max in0.rows in1.rows) (max in0.cols in1.cols))
  else if in1.cols = 1 ∧ in0.rows % in1.rows = 0 then
    .ok (reshapeColMajor
      (assignSumOf (reshapeColMajor in0 in1.rows (in0.rows * in0.cols / in1.rows)) in1)
      (max in0.rows in1.rows) (max in0.cols in1.cols))
  else if in1.cols < in0.cols ∧ in0.rows = in1.rows ∧ in0.cols % in1.cols = 0 then
    if hasMBLayout then
      .error "InvalidArgument: Plus operation applied to mismatching number of columns when columns are samples of a minibatch"
    else
      -- per-column loop: output column i*ratio+s gets in1 column i (repeated) plus in0 column i*ratio+s
      .ok ⟨in0.rows, in0.cols, fun i j =>
        in1.entry i (j / (in0.cols / in1.cols)) + in0.entry i j⟩
  else
    .error "LogicError: Plus operation's Validate() function let invalid dimensions slip by."

/-- `PlusNode::ComputeInputPartial` (LinearAlgebraNodes.h, lines 41-99):
accumulates into the gradient of the selected input.  `childGrad` is the
input's current gradient slice, `G` the node's own gradient slice and
`valid` the minibatch-layout column mask used by
`MaskMissingGradientColumnsToZero`. -/
def PlusNode.backward (childGrad G : Mat α) (valid : Nat → Bool) :
    Except String (Mat α) :=
  if childGrad.cols = G.cols ∧ childGrad.rows = G.rows then
    .ok (matAdd childGrad G)
  else if childGrad.cols = 1 ∧ childGrad.rows = 1 then
    .ok ⟨childGrad.rows, childGrad.cols, fun i j =>
      childGrad.entry i j + matSum (maskCols G valid)⟩
  else if childGrad.cols = 1 ∧ G.cols ≠ 1 then
    .ok (matAdd childGrad
      (matMul (reshapeColMajor (maskCols G valid) childGrad.rows
                 (G.rows * G.cols / childGrad.rows))
              (onesMat (G.rows * G.cols / childGrad.rows) 1)))
  else if childGrad.rows = 1 ∧ G.rows ≠ 1 then
    .ok (matAdd childGrad (matMul (onesMat 1 G.rows) G))
  else if childGrad.cols ≠ 1 ∧ G.cols % childGrad.cols = 0 then
    -- per-column loop: column i of the child gradient accumulates the row sums
    -- of the reshaped slice of G over columns i*ratio .. i*ratio+ratio-1
    .ok ⟨childGrad.rows, childGrad.cols, fun p i =>
      childGrad.entry p i +
        sumUpTo (G.rows * G.cols / childGrad.rows / childGrad.cols) (fun q =>
          (reshapeColMajor (colSlice G (i * (G.cols / childGrad.cols)) (G.cols / childGrad.cols))
            childGrad.rows (G.rows * G.cols / childGrad.rows / childGrad.cols)).entry p q)⟩
  else
    .error "RuntimeError: Plus partial: unexpected condition."

/-- `MinusNode::EvaluateThisNode` (LinearAlgebraNodes.h, lines 231-257):
the pattern table of Minus — note it has no divisible-columns tiling
branch. -/
def MinusNode.evaluate (in0 in1 : Mat α) : Except String (Mat α) :=
  if (in0.rows = in1.rows ∧ in0.cols = in1.cols) ∨
      ((in0.rows = 1 ∨ in1.rows = 1) ∧ in0.cols = in1.cols) then
    .ok (assignDifferenceOf in0 in1)
  else if in0.cols = 1 ∧ in1.rows % in0.rows = 0 then
    .ok (reshapeColMajor
      (assignDifferenceOf in0 (reshapeColMajor in1 in0.rows (in1.rows * in1.cols / in0.rows)))
      (max in0.rows in1.rows) (max in0.cols in1.cols))
  else if in1.cols = 1 ∧ in0.rows % in1.rows = 0 then
    .ok (reshapeColMajor
      (assignDifferenceOf (reshapeColMajor in0 in1.rows (in0.rows * in0.cols / in1.rows)) in1)
      (max in0.rows in1.rows) (max in0.cols in1.cols))
  else
    .error "LogicError: Minus operation's Validate() function let invalid dimensions slip by."

/-- `MinusNode::ComputeInputPartial` (LinearAlgebraNodes.h, lines 189-229):
the sign is +1 for input 0 (minuend) and -1 for input 1 (subtrahend);
only four of Plus's five gradient patterns are present. -/
def MinusNode.backward (inputIndex : Nat) (childGrad G : Mat α)
    (valid : Nat → Bool) : Except String (Mat α) :=
  if childGrad.cols = G.cols ∧ childGrad.rows = G.rows then
    if inputIndex = 0 then .ok (matAdd childGrad G) else .ok (matSub childGrad G)
  else if childGrad.cols = 1 ∧ childGrad.rows = 1 then
    if inputIndex = 0 then
      .ok ⟨childGrad.rows, childGrad.cols, fun i j =>
        childGrad.entry i j + matSum (maskCols G valid)⟩
    else
      .ok ⟨childGrad.rows, childGrad.cols, fun i j =>
        childGrad.entry i j - matSum (maskCols G valid)⟩
  else if childGrad.cols = 1 ∧ G.cols ≠ 1 then
    .ok (matAdd childGrad (matScale (if inputIndex = 0 then (1 : α) else -1)
      (matMul (reshapeColMajor (maskCols G valid) childGrad.rows
                 (G.rows * G.cols / childGrad.rows))
              (onesMat (G.rows * G.cols / childGrad.rows) 1))))
  else if childGrad.rows = 1 ∧ G.rows ≠ 1 then
    .ok (matAdd childGrad (matScale (if inputIndex = 0 then (1 : α) else -1)
      (matMul (onesMat 1 G.rows) G)))
  else
    .error "LogicError: Minus operation's Validate() function let invalid dimensions slip by."

/-- Claim C1 (amended): for the exact-match, scalar, broadcasting
column-vector and broadcasting row-vector patterns, Minus's Evaluate handles
the same pattern as Plus (combining by subtraction, i.e. agreeing with Plus
applied to the negated second operand), and Minus's ComputeGradient
accumulates by the same reduction rule as Plus with a uniform sign factor of
+1 for input 0 (minuend) and -1 for input 1 (subtrahend); but the
divisible-columns tiling pattern (input 1 with fewer columns, equal rows,
column counts dividing evenly) is accepted by Plus's Evaluate and rejected by
Minus's Evaluate with a LogicError, so it is not accepted by Minus exactly
when it is accepted by Plus. -/
theorem C1_minus_plus_pattern_table :
    (∀ (in0 in1 : Mat α) (mb : Bool),
      ((in0.rows = in1.rows ∧ in0.cols = in1.cols) ∨
          ((in0.rows = 1 ∨ in1.rows = 1) ∧ in0.cols = in1.cols)) ∨
        (in0.cols = 1 ∧ in1.rows % in0.rows = 0) ∨
        (in1.cols = 1 ∧ in0.rows % in1.rows = 0) →
      ∃ M P, MinusNode.evaluate in0 in1 = .ok M ∧
        PlusNode.evaluate in0 (negMat in1) mb = .ok P ∧ MatEq M P) ∧
    (∀ (in0 in1 : Mat α),
      in1.cols < in0.cols → in0.rows = in1.rows → in0.cols % in1.cols = 0 →
      in1.cols ≠ 1 →
      (∃ P, PlusNode.evaluate in0 in1 false = .ok P) ∧
        ∃ e, MinusNode.evaluate in0 in1 = .error e) ∧
    (∀ (inputIndex : Nat) (childGrad G : Mat α) (valid : Nat → Bool),
      inputIndex ≤ 1 →
      ((childGrad.cols = G.cols ∧ childGrad.rows = G.rows) ∨
        (childGrad.cols = 1 ∧ childGrad.rows = 1) ∨
        (childGrad.cols = 1 ∧ G.cols ≠ 1) ∨
        (childGrad.rows = 1 ∧ G.rows ≠ 1)) →
      ∃ R P, MinusNode.backward inputIndex childGrad G valid = .ok R ∧
        PlusNode.backward childGrad G valid = .ok P ∧
        R.rows = childGrad.rows ∧ R.cols = childGrad.cols ∧
        P.rows = childGrad.rows ∧ P.cols = childGrad.cols ∧
        ∀ i < childGrad.rows, ∀ j < childGrad.cols,
          R.entry i j - childGrad.entry i j =
            (if inputIndex = 0 then 1 else -1) *
              (P.entry i j - childGrad.entry i j)) := by
  refine ⟨?_, ?_, ?_⟩
  · intro in0 in1 mb h
    by_cases h1 : (in0.rows = in1.rows ∧ in0.cols = in1.cols) ∨
        ((in0.rows = 1 ∨ in1.rows = 1) ∧ in0.cols = in1.cols)
    · have h1' : (in0.rows = (negMat in1).rows ∧ in0.cols = (negMat in1).cols) ∨
          ((in0.rows = 1 ∨ (negMat in1).rows = 1) ∧ in0.cols = (negMat in1).cols) := h1
      rw [MinusNode.evaluate, if_pos h1, PlusNode.evaluate, if_pos h1']
      refine ⟨_, _, rfl, rfl, rfl, rfl, ?_⟩
      intro i _ j _
      simp [assignDifferenceOf, assignSumOf, negMat, sub_eq_add_neg]
    · by_cases h2 : in0.cols = 1 ∧ in1.rows % in0.rows = 0
      · have h1' : ¬ ((in0.rows = (negMat in1).rows ∧ in0.cols = (negMat in1).cols) ∨
            ((in0.rows = 1 ∨ (negMat in1).rows = 1) ∧ in0.cols = (negMat in1).cols)) := h1
        have h2' : in0.cols = 1 ∧ (negMat in1).rows % in0.rows = 0 := h2
        rw [MinusNode.evaluate, if_neg h1, if_pos h2,
          PlusNode.evaluate, if_neg h1', if_pos h2']
        refine ⟨_, _, rfl, rfl, rfl, rfl, ?_⟩
        intro i _ j _
        simp [assignDifferenceOf, assignSumOf, negMat, reshapeColMajor, sub_eq_add_neg]
      · by_cases h3 : in1.cols = 1 ∧ in0.rows % in1.rows = 0
        · have h1' : ¬ ((in0.rows = (negMat in1).rows ∧ in0.cols = (negMat in1).cols) ∨
              ((in0.rows = 1 ∨ (negMat in1).rows = 1) ∧ in0.cols = (negMat in1).cols)) := h1
          have h2' : ¬ (in0.cols = 1 ∧ (negMat in1).rows % in0.rows = 0) := h2
          have h3' : (negMat in1).cols = 1 ∧ in0.rows % (negMat in1).rows = 0 := h3
          rw [MinusNode.evaluate, if_neg h1, if_neg h2, if_pos h3,
            PlusNode.evaluate, if_neg h1', if_neg h2', if_pos h3']
          refine ⟨_, _, rfl, rfl, rfl, rfl, ?_⟩
          intro i _ j _
          simp [assignDifferenceOf, assignSumOf, negMat, reshapeColMajor, sub_eq_add_neg]
        · exact absurd h (by tauto)
  · intro in0 in1 hlt hrows hmod hc1
    have h1 : ¬ ((in0.rows = in1.rows ∧ in0.cols = in1.cols) ∨
        ((in0.rows = 1 ∨ in1.rows = 1) ∧ in0.cols = in1.cols)) := by
      rintro (⟨-, hc⟩ | ⟨-, hc⟩) <;> omega
    have h2 : ¬ (in0.cols = 1 ∧ in1.rows % in0.rows = 0) := by
      rintro ⟨hc0, -⟩
      have hz : in1.cols = 0 := by omega
      rw [hz, Nat.mod_zero] at hmod
      omega
    have h3 : ¬ (in1.cols = 1 ∧ in0.rows % in1.rows = 0) := by
      rintro ⟨hc, -⟩; exact hc1 hc
    have h4 : in1.cols < in0.cols ∧ in0.rows = in1.rows ∧ in0.cols % in1.cols = 0 :=
      ⟨hlt, hrows, hmod⟩
    constructor
    · rw [PlusNode.evaluate, if_neg h1, if_neg h2, if_neg h3, if_pos h4]
      exact ⟨_, rfl⟩
    · rw [MinusNode.evaluate, if_neg h1, if_neg h2, if_neg h3]
      exact ⟨_, rfl⟩
  · intro idx cg G valid hidx hpat
    interval_cases idx
    · have hsign : (if (0 : Nat) = 0 then (1 : α) else -1) = 1 := by norm_num
      by_cases p1 : cg.cols = G.cols ∧ cg.rows = G.rows
      · rw [MinusNode.backward, if_pos p1, PlusNode.backward, if_pos p1]
        refine ⟨_, _, rfl, rfl, rfl, rfl, rfl, rfl, ?_⟩
        intro i _ j _
        rw [hsign]
        simp only [matAdd]
        ring
      · by_cases p2 : cg.cols = 1 ∧ cg.rows = 1
        · rw [MinusNode.backward, if_neg p1, if_pos p2,
            PlusNode.backward, if_neg p1, if_pos p2]
          refine ⟨_, _, rfl, rfl, rfl, rfl, rfl, rfl, ?_⟩
          intro i _ j _
          rw [hsign]
          ring
        · by_cases p3 : cg.cols = 1 ∧ G.cols ≠ 1
          · rw [MinusNode.backward, if_neg p1, if_neg p2, if_pos p3,
              PlusNode.backward, if_neg p1, if_neg p2, if_pos p3]
            refine ⟨_, _, rfl, rfl, rfl, rfl, rfl, rfl, ?_⟩
            intro i _ j _
            rw [hsign]
            simp only [matAdd, matScale, hsign]
            ring
          · by_cases p4 : cg.rows = 1 ∧ G.rows ≠ 1
            · rw [MinusNode.backward, if_neg p1, if_neg p2, if_neg p3, if_pos p4,
                PlusNode.backward, if_neg p1, if_neg p2, if_neg p3, if_pos p4]
              refine ⟨_, _, rfl, rfl, rfl, rfl, rfl, rfl, ?_⟩
              intro i _ j _
              rw [hsign]
              simp only [matAdd, matScale, hsign]
              ring
            · exact absurd hpat (by tauto)
    · have hsign : (if (1 : Nat) = 0 then (1 : α) else -1) = -1 := by norm_num
      by_cases p1 : cg.cols = G.cols ∧ cg.rows = G.rows
      · rw [MinusNode.backward, if_pos p1, PlusNode.backward, if_pos p1]
        refine ⟨_, _, rfl, rfl, rfl, rfl, rfl, rfl, ?_⟩
        intro i _ j _
        rw [hsign]
        simp only [matAdd, matSub]
        ring
      · by_cases p2 : cg.cols = 1 ∧ cg.rows = 1
        · rw [MinusNode.backward, if_neg p1, if_pos p2,
            PlusNode.backward, if_neg p1, if_pos p2]
          refine ⟨_, _, rfl, rfl, rfl, rfl, rfl, rfl, ?_⟩
          intro i _ j _
          rw [hsign]
          ring
        · by_cases p3 : cg.cols = 1 ∧ G.cols ≠ 1
          · rw [MinusNode.backward, if_neg p1, if_neg p2, if_pos p3,
              PlusNode.backward, if_neg p1, if_neg p2, if_pos p3]
            refine ⟨_, _, rfl, rfl, rfl, rfl, rfl, rfl, ?_⟩
            intro i _ j _
            rw [hsign]
            simp only [matAdd, matScale, hsign]
            ring
          · by_cases p4 : cg.rows = 1 ∧ G.rows ≠ 1
            · rw [MinusNode.backward, if_neg p1, if_neg p2, if_neg p3, if_pos p4,
                PlusNode.backward, if_neg p1, if_neg p2, if_neg p3, if_pos p4]
              refine ⟨_, _, rfl, rfl, rfl, rfl, rfl, rfl, ?_⟩
              intro i _ j _
              rw [hsign]
              simp only [matAdd, matScale, hsign]
              ring
            · exact absurd hpat (by tauto)

/-- Claim C1 counterexample: the 1x4 / 1x2 shape pair is accepted by Plus's
divisible-columns tiling branch but rejected by Minus's Evaluate with a
LogicError, refuting the claim that the tiling pattern is accepted by Minus
exactly when it is accepted by Plus. -/
theorem C1_tiling_not_in_minus :
    isOkE (PlusNode.evaluate (Mat.ofLists ([[1, 2, 3, 4]] : List (List ℤ)))
        (Mat.ofLists [[10, 20]]) false) = true ∧
    errMsg (MinusNode.evaluate (Mat.ofLists ([[1, 2, 3, 4]] : List (List ℤ)))
        (Mat.ofLists [[10, 20]])) =
      some "LogicError: Minus operation's Validate() function let invalid dimensions slip by." := by
  constructor
  · decide
  · decide

/-- Claim C1 witness: the amended theorem applied at concrete inputs — a
2x1 column vector against a 2x2 matrix for the evaluation clause, the
tiling clause at the 1x4 / 1x2 pair, and the gradient clause for input 1 of
the scalar pattern. -/
theorem C1_minus_plus_pattern_table_witness :
    (∃ M P, MinusNode.evaluate (Mat.ofLists ([[1], [2]] : List (List ℤ)))
        (Mat.ofLists [[10, 20], [30, 40]]) = .ok M ∧
      PlusNode.evaluate (Mat.ofLists ([[1], [2]] : List (List ℤ)))
        (negMat (Mat.ofLists [[10, 20], [30, 40]])) false = .ok P ∧ MatEq M P) ∧
    ((∃ P, PlusNode.evaluate (Mat.ofLists ([[1, 2, 3, 4]] : List (List ℤ)))
        (Mat.ofLists [[5, 6]]) false = .ok P) ∧
      ∃ e, MinusNode.evaluate (Mat.ofLists ([[1, 2, 3, 4]] : List (List ℤ)))
        (Mat.ofLists [[5, 6]]) = .error e) ∧
    ∃ R P, MinusNode.backward 1 (Mat.ofLists ([[0]] : List (List ℤ)))
        (Mat.ofLists [[1, 1], [1, 1]]) (fun _ => true) = .ok R ∧
      PlusNode.backward (Mat.ofLists ([[0]] : List (List ℤ)))
        (Mat.ofLists [[1, 1], [1, 1]]) (fun _ => true) = .ok P ∧
      R.rows = 1 ∧ R.cols = 1 ∧ P.rows = 1 ∧ P.cols = 1 ∧
      ∀ i < 1, ∀ j < 1,
        R.entry i j - (Mat.ofLists ([[0]] : List (List ℤ))).entry i j =
          (if 1 = 0 then 1 else -1) *
            (P.entry i j - (Mat.ofLists ([[0]] : List (List ℤ))).entry i j) := by
  refine ⟨C1_minus_plus_pattern_table.1 _ _ false (by decide),
    C1_minus_plus_pattern_table.2.1 _ _ (by decide) (by decide) (by decide) (by decide),
    C1_minus_plus_pattern_table.2.2 1 _ _ _ (by decide) (by decide)⟩

/-- A 1x1 matrix holding the value `s` (a scalar operand). -/
def scalarMat (s : α) : Mat α :=
  ⟨1, 1, fun _ _ => s⟩

/-- Entry of the column-vector divisible-rows branch of Plus's Evaluate
(the second branch, lines 115-119): reshaping the larger operand
column-major to `v.rows` rows, adding the broadcast column vector and
reshaping back yields `v (i mod v.rows) + B i j` at position `(i, j)`. -/
theorem colvec_divisible_entry (v B : Mat α)
    (hv1 : v.cols = 1) (hv0 : 0 < v.rows) (hdvd : v.rows ∣ B.rows)
    (hB : 0 < B.rows) (hcB : 0 < B.cols)
    (hNne : B.rows * B.cols / v.rows ≠ 1)
    (i j : Nat) (hi : i < B.rows) (hj : j < B.cols) :
    (reshapeColMajor
        (assignSumOf v (reshapeColMajor B v.rows (B.rows * B.cols / v.rows)))
        (max v.rows B.rows) (max v.cols B.cols)).entry i j =
      v.entry (i % v.rows) 0 + B.entry i j := by
  have hmaxR : max v.rows B.rows = B.rows := Nat.max_eq_right (Nat.le_of_dvd hB hdvd)
  have hmaxC : max v.cols B.cols = B.cols := by
    rw [hv1]; exact Nat.max_eq_right hcB
  obtain ⟨t, ht⟩ := hdvd
  simp only [reshapeColMajor, assignSumOf, Nat.max_self, hmaxR, hmaxC, hv1,
    if_pos rfl]
  have hif : (if v.rows = 1 then 0 else (j * B.rows + i) % v.rows) =
      (j * B.rows + i) % v.rows := by
    split
    · next h => rw [h, Nat.mod_one]
    · rfl
  rw [hif]
  have hNif : (if B.rows * B.cols / v.rows = 1 then 0
      else (j * B.rows + i) / v.rows) = (j * B.rows + i) / v.rows := by
    rw [if_neg hNne]
  rw [hNif]
  have hrec : (j * B.rows + i) / v.rows * v.rows + (j * B.rows + i) % v.rows =
      j * B.rows + i := by
    rw [Nat.mul_comm]
    exact Nat.div_add_mod _ _
  rw [hrec]
  have hK1 : (j * B.rows + i) % B.rows = i := by
    rw [Nat.add_comm, Nat.add_mul_mod_self_right, Nat.mod_eq_of_lt hi]
  have hK2 : (j * B.rows + i) / B.rows = j := by
    rw [Nat.add_comm, Nat.add_mul_div_right _ _ hB, Nat.div_eq_of_lt hi, Nat.zero_add]
  have hK3 : (j * B.rows + i) % v.rows = i % v.rows := by
    have harr : j * B.rows + i = i + j * t * v.rows := by rw [ht]; ring
    rw [harr, Nat.add_mul_mod_self_right]
  rw [hK1, hK2, hK3]
  simp

/-- Entry of the symmetric divisible-rows branch of Plus's Evaluate
(the third branch, lines 120-124), where the column vector is the second
operand. -/
theorem divisible_colvec_entry (B v : Mat α)
    (hv1 : v.cols = 1) (hv0 : 0 < v.rows) (hdvd : v.rows ∣ B.rows)
    (hB : 0 < B.rows) (hcB : 0 < B.cols)
    (hNne : B.rows * B.cols / v.rows ≠ 1)
    (i j : Nat) (hi : i < B.rows) (hj : j < B.cols) :
    (reshapeColMajor
        (assignSumOf (reshapeColMajor B v.rows (B.rows * B.cols / v.rows)) v)
        (max B.rows v.rows) (max B.cols v.cols)).entry i j =
      B.entry i j + v.entry (i % v.rows) 0 := by
  have hmaxR : max B.rows v.rows = B.rows := Nat.max_eq_left (Nat.le_of_dvd hB hdvd)
  have hmaxC : max B.cols v.cols = B.cols := by
    rw [hv1]; exact Nat.max_eq_left hcB
  obtain ⟨t, ht⟩ := hdvd
  simp only [reshapeColMajor, assignSumOf, Nat.max_self, hmaxR, hmaxC, hv1,
    if_pos rfl]
  have hif : (if v.rows = 1 then 0 else (j * B.rows + i) % v.rows) =
      (j * B.rows + i) % v.rows := by
    split
    · next h => rw [h, Nat.mod_one]
    · rfl
  rw [hif]
  have hNif : (if B.rows * B.cols / v.rows = 1 then 0
      else (j * B.rows + i) / v.rows) = (j * B.rows + i) / v.rows := by
    rw [if_neg hNne]
  rw [hNif]
  have hrec : (j * B.rows + i) / v.rows * v.rows + (j * B.rows + i) % v.rows =
      j * B.rows + i := by
    rw [Nat.mul_comm]
    exact Nat.div_add_mod _ _
  rw [hrec]
  have hK1 : (j * B.rows + i) % B.rows = i := by
    rw [Nat.add_comm, Nat.add_mul_mod_self_right, Nat.mod_eq_of_lt hi]
  have hK2 : (j * B.rows + i) / B.rows = j := by
    rw [Nat.add_comm, Nat.add_mul_div_right _ _ hB, Nat.div_eq_of_lt hi, Nat.zero_add]
  have hK3 : (j * B.rows + i) % v.rows = i % v.rows := by
    have harr : j * B.rows + i = i + j * t * v.rows := by rw [ht]; ring
    rw [harr, Nat.add_mul_mod_self_right]
  rw [hK1, hK2, hK3]
  simp

/-- Claim C3: when input 0 of Plus is a 1x1 scalar and input 1 an N-by-M
matrix, Evaluate adds the scalar to every element (in particular
Plus(scalar 3, matrix 1 2 / 3 4) is the matrix 4 5 / 6 7), and
ComputeGradient for the scalar input masks padding columns of the incoming
gradient to zero and adds the sum of the remaining gradient elements into
the 1x1 gradient (under an all-ones gradient over a 2x2 output starting
from a zero gradient, the accumulated value is 4). -/
theorem C3_plus_scalar_broadcast :
    (∀ (s : α) (B : Mat α) (mb : Bool), 0 < B.rows → 0 < B.cols →
      ∃ M, PlusNode.evaluate (scalarMat s) B mb = .ok M ∧
        M.rows = B.rows ∧ M.cols = B.cols ∧
        ∀ i < B.rows, ∀ j < B.cols, M.entry i j = s + B.entry i j) ∧
    (∀ (g0 : α) (G : Mat α) (valid : Nat → Bool), ¬(G.rows = 1 ∧ G.cols = 1) →
      ∃ R, PlusNode.backward (scalarMat g0) G valid = .ok R ∧
        R.rows = 1 ∧ R.cols = 1 ∧
        R.entry 0 0 = g0 + matSum (maskCols G valid)) ∧
    (∃ M, PlusNode.evaluate (scalarMat (3 : α))
        (Mat.ofLists [[1, 2], [3, 4]]) false = .ok M ∧
      MatEq M (Mat.ofLists [[4, 5], [6, 7]])) ∧
    (∃ R, PlusNode.backward (scalarMat (0 : α)) (onesMat 2 2)
        (fun _ => true) = .ok R ∧ R.entry 0 0 = 4) := by
  have heval : ∀ (s : α) (B : Mat α) (mb : Bool), 0 < B.rows → 0 < B.cols →
      ∃ M, PlusNode.evaluate (scalarMat s) B mb = .ok M ∧
        M.rows = B.rows ∧ M.cols = B.cols ∧
        ∀ i < B.rows, ∀ j < B.cols, M.entry i j = s + B.entry i j := by
    intro s B mb hr hc
    by_cases hb1 : B.cols = 1
    · have hg1 : ((scalarMat s : Mat α).rows = B.rows ∧ (scalarMat s : Mat α).cols = B.cols) ∨
          (((scalarMat s : Mat α).rows = 1 ∨ B.rows = 1) ∧ (scalarMat s : Mat α).cols = B.cols) :=
        Or.inr ⟨Or.inl rfl, hb1.symm⟩
      rw [PlusNode.evaluate, if_pos hg1]
      refine ⟨_, rfl, ?_, ?_, ?_⟩
      · exact Nat.max_eq_right hr
      · exact Nat.max_eq_right hc
      · intro i hi j hj
        have hj0 : j = 0 := by omega
        have hri : (if B.rows = 1 then 0 else i) = i := by split <;> omega
        simp [assignSumOf, scalarMat, hri, hb1, hj0]
    · have hg1 : ¬ (((scalarMat s : Mat α).rows = B.rows ∧ (scalarMat s : Mat α).cols = B.cols) ∨
          (((scalarMat s : Mat α).rows = 1 ∨ B.rows = 1) ∧ (scalarMat s : Mat α).cols = B.cols)) := by
        rintro (⟨-, h⟩ | ⟨-, h⟩) <;> exact hb1 (by simpa [scalarMat] using h.symm)
      have hg2 : (scalarMat s : Mat α).cols = 1 ∧ B.rows % (scalarMat s : Mat α).rows = 0 :=
        ⟨rfl, Nat.mod_one _⟩
      rw [PlusNode.evaluate, if_neg hg1, if_pos hg2]
      refine ⟨_, rfl, ?_, ?_, ?_⟩
      · exact Nat.max_eq_right hr
      · exact Nat.max_eq_right hc
      · intro i hi j hj
        have hNne : B.rows * B.cols / (scalarMat s : Mat α).rows ≠ 1 := by
          show B.rows * B.cols / 1 ≠ 1
          rw [Nat.div_one]
          have : 2 ≤ B.cols := by omega
          have : 1 * 2 ≤ B.rows * B.cols := Nat.mul_le_mul hr this
          omega
        have := colvec_divisible_entry (scalarMat s) B rfl Nat.one_pos
          (Dvd.intro B.rows (by simp [scalarMat])) hr hc hNne i j hi hj
        rw [this]
        simp [scalarMat]
  have hback : ∀ (g0 : α) (G : Mat α) (valid : Nat → Bool), ¬(G.rows = 1 ∧ G.cols = 1) →
      ∃ R, PlusNode.backward (scalarMat g0) G valid = .ok R ∧
        R.rows = 1 ∧ R.cols = 1 ∧
        R.entry 0 0 = g0 + matSum (maskCols G valid) := by
    intro g0 G valid hG
    have hp1 : ¬ ((scalarMat g0 : Mat α).cols = G.cols ∧ (scalarMat g0 : Mat α).rows = G.rows) := by
      rintro ⟨hc, hr⟩
      exact hG ⟨hr.symm, hc.symm⟩
    have hp2 : (scalarMat g0 : Mat α).cols = 1 ∧ (scalarMat g0 : Mat α).rows = 1 := ⟨rfl, rfl⟩
    rw [PlusNode.backward, if_neg hp1, if_pos hp2]
    exact ⟨_, rfl, rfl, rfl, rfl⟩
  refine ⟨heval, hback, ?_, ?_⟩
  · obtain ⟨M, hM, hr, hc, he⟩ :=
      heval 3 (Mat.ofLists [[1, 2], [3, 4]]) false
        (by simp [Mat.ofLists]) (by simp [Mat.ofLists])
    refine ⟨M, hM, hr, hc, ?_⟩
    intro i hi j hj
    have hi2 : i < 2 := by rw [hr] at hi; simpa [Mat.ofLists] using hi
    have hj2 : j < 2 := by rw [hc] at hj; simpa [Mat.ofLists] using hj
    rw [he i (by simpa [Mat.ofLists] using hi2) j (by simpa [Mat.ofLists] using hj2)]
    interval_cases i <;> interval_cases j <;>
      simp [Mat.ofLists] <;> norm_num
  · obtain ⟨R, hR, -, -, he⟩ :=
      hback 0 (onesMat 2 2) (fun _ => true) (by norm_num [onesMat])
    refine ⟨R, hR, ?_⟩
    rw [he]
    norm_num [matSum, maskCols, onesMat, sumUpTo]

/-- Claim C3 witness: the scalar-broadcast clauses evaluated at a 1x3 matrix
and at a masked 2x2 gradient. -/
theorem C3_plus_scalar_broadcast_witness :
    (∃ M, PlusNode.evaluate (scalarMat (5 : ℤ)) (Mat.ofLists [[1, 2, 3]]) false = .ok M ∧
      M.rows = 1 ∧ M.cols = 3 ∧
      ∀ i < 1, ∀ j < 3,
        M.entry i j = 5 + (Mat.ofLists ([[1, 2, 3]] : List (List ℤ))).entry i j) ∧
    ∃ R, PlusNode.backward (scalarMat (1 : ℤ)) (Mat.ofLists [[1, 2], [3, 4]])
        (fun j => j == 0) = .ok R ∧
      R.rows = 1 ∧ R.cols = 1 ∧
      R.entry 0 0 = 1 + matSum (maskCols (Mat.ofLists [[1, 2], [3, 4]]) (fun j => j == 0)) :=
  ⟨C3_plus_scalar_broadcast.1 5 _ false (by decide) (by decide),
   C3_plus_scalar_broadcast.2.1 1 _ _ (by decide)⟩

/-- Claim C9: Plus's Evaluate also accepts the case where one operand has a
single column and its row count strictly divides the other operand's row
count; the larger operand is reshaped column-major to the vector's row
count, summed against the broadcast column vector, and the output reshaped
back to max(rows) by max(cols), so Evaluate succeeds and the entry at
`(i, j)` is `B i j` plus the vector entry at `i mod v.rows`. -/
theorem C9_plus_divisible_rows :
    ∀ (v B : Mat α) (mb : Bool), v.cols = 1 → v.rows ∣ B.rows → v.rows ≠ B.rows →
      0 < v.rows → 0 < B.rows → 0 < B.cols →
      (∃ M, PlusNode.evaluate v B mb = .ok M ∧
        M.rows = B.rows ∧ M.cols = B.cols ∧
        ∀ i < B.rows, ∀ j < B.cols,
          M.entry i j = v.entry (i % v.rows) 0 + B.entry i j) ∧
      (∃ M, PlusNode.evaluate B v mb = .ok M ∧
        M.rows = B.rows ∧ M.cols = B.cols ∧
        ∀ i < B.rows, ∀ j < B.cols,
          M.entry i j = B.entry i j + v.entry (i % v.rows) 0) := by
  intro v B mb hv1 hdvd hne hv0 hB hcB
  have hlt : v.rows < B.rows := lt_of_le_of_ne (Nat.le_of_dvd hB hdvd) hne
  obtain ⟨t, ht⟩ := hdvd
  have hmod : B.rows % v.rows = 0 := by rw [ht]; exact Nat.mul_mod_right _ _
  have ht2 : 2 ≤ t := by
    rcases Nat.lt_or_ge t 2 with h | h
    · interval_cases t
      · omega
      · rw [Nat.mul_one] at ht; omega
    · exact h
  have hNne : B.rows * B.cols / v.rows ≠ 1 := by
    have hN : B.rows * B.cols / v.rows = t * B.cols := by
      rw [ht, Nat.mul_assoc, Nat.mul_div_cancel_left _ hv0]
    rw [hN]
    have : 2 * 1 ≤ t * B.cols := Nat.mul_le_mul ht2 hcB
    omega
  constructor
  · by_cases hg1 : (v.rows = B.rows ∧ v.cols = B.cols) ∨
        ((v.rows = 1 ∨ B.rows = 1) ∧ v.cols = B.cols)
    · have hv_one : v.rows = 1 := by
        rcases hg1 with ⟨h, -⟩ | ⟨h, -⟩
        · omega
        · rcases h with h | h
          · exact h
          · omega
      have hBc1 : B.cols = 1 := by
        rcases hg1 with ⟨-, h⟩ | ⟨-, h⟩ <;> omega
      have hR1 : B.rows ≠ 1 := by omega
      rw [PlusNode.evaluate, if_pos hg1]
      refine ⟨_, rfl, Nat.max_eq_right (le_of_lt hlt), ?_, ?_⟩
      · show max v.cols B.cols = B.cols
        rw [hv1]; exact Nat.max_eq_right hcB
      · intro i hi j hj
        have hj0 : j = 0 := by omega
        simp [assignSumOf, hv_one, hv1, hBc1, hj0, hR1, Nat.mod_one]
    · have hg2 : v.cols = 1 ∧ B.rows % v.rows = 0 := ⟨hv1, hmod⟩
      rw [PlusNode.evaluate, if_neg hg1, if_pos hg2]
      refine ⟨_, rfl, Nat.max_eq_right (le_of_lt hlt), ?_, ?_⟩
      · show max v.cols B.cols = B.cols
        rw [hv1]; exact Nat.max_eq_right hcB
      · intro i hi j hj
        exact colvec_divisible_entry v B hv1 hv0 ⟨t, ht⟩ hB hcB hNne i j hi hj
  · by_cases hg1 : (B.rows = v.rows ∧ B.cols = v.cols) ∨
        ((B.rows = 1 ∨ v.rows = 1) ∧ B.cols = v.cols)
    · have hv_one : v.rows = 1 := by
        rcases hg1 with ⟨h, -⟩ | ⟨h, -⟩
        · omega
        · rcases h with h | h
          · omega
          · exact h
      have hBc1 : B.cols = 1 := by
        rcases hg1 with ⟨-, h⟩ | ⟨-, h⟩ <;> omega
      have hR1 : B.rows ≠ 1 := by omega
      rw [PlusNode.evaluate, if_pos hg1]
      refine ⟨_, rfl, Nat.max_eq_left (le_of_lt hlt), ?_, ?_⟩
      · show max B.cols v.cols = B.cols
        rw [hv1]; exact Nat.max_eq_left hcB
      · intro i hi j hj
        have hj0 : j = 0 := by omega
        simp [assignSumOf, hv_one, hv1, hBc1, hj0, hR1, Nat.mod_one]
    · have hg2 : ¬ (B.cols = 1 ∧ v.rows % B.rows = 0) := by
        rintro ⟨-, h⟩
        rw [Nat.mod_eq_of_lt hlt] at h
        omega
      have hg3 : v.cols = 1 ∧ B.rows % v.rows = 0 := ⟨hv1, hmod⟩
      rw [PlusNode.evaluate, if_neg hg1, if_neg hg2, if_pos hg3]
      refine ⟨_, rfl, Nat.max_eq_left (le_of_lt hlt), ?_, ?_⟩
      · show max B.cols v.cols = B.cols
        rw [hv1]; exact Nat.max_eq_left hcB
      · intro i hi j hj
        exact divisible_colvec_entry B v hv1 hv0 ⟨t, ht⟩ hB hcB hNne i j hi hj

/-- Claim C9 witness: a 2x1 vector against a 6x2 matrix. -/
theorem C9_plus_divisible_rows_witness :
    (∃ M, PlusNode.evaluate (Mat.ofLists ([[100], [200]] : List (List ℤ)))
        (Mat.ofLists [[1, 2], [3, 4], [5, 6], [7, 8], [9, 10], [11, 12]]) false = .ok M ∧
      M.rows = 6 ∧ M.cols = 2 ∧
      ∀ i < 6, ∀ j < 2,
        M.entry i j =
          (Mat.ofLists ([[100], [200]] : List (List ℤ))).entry (i % 2) 0 +
            (Mat.ofLists ([[1, 2], [3, 4], [5, 6], [7, 8], [9, 10], [11, 12]] :
              List (List ℤ))).entry i j) ∧
    ∃ M, PlusNode.evaluate
        (Mat.ofLists ([[1, 2], [3, 4], [5, 6], [7, 8], [9, 10], [11, 12]] : List (List ℤ)))
        (Mat.ofLists [[100], [200]]) false = .ok M ∧
      M.rows = 6 ∧ M.cols = 2 ∧
      ∀ i < 6, ∀ j < 2,
        M.entry i j =
          (Mat.ofLists ([[1, 2], [3, 4], [5, 6], [7, 8], [9, 10], [11, 12]] :
            List (List ℤ))).entry i j +
            (Mat.ofLists ([[100], [200]] : List (List ℤ))).entry (i % 2) 0 :=
  C9_plus_divisible_rows _ _ false (by decide) (by decide) (by decide)
    (by decide) (by decide) (by decide)

/-- `TransposeNode::ComputeInputPartialNonLooping` (LinearAlgebraNodes.h,
lines 1329-1343): accumulates `ConstOnes(n, n) * gradientValues^T` into the
input gradient, where `n` is the input gradient's row count. -/
def TransposeNode.backward (inputGrad G : Mat α) : Mat α :=
  matAdd inputGrad (matMul (onesMat inputGrad.rows inputGrad.rows) (transposeMat G))

/-- Claim C4: the Transpose backward step is claimed to add exactly the
transpose of the output gradient, via the identity
ones(n,n) * G^T = G^T.  Evaluating the code at the 2x2 output gradient
1 2 / 3 4 (input gradient zero-initialised, n = 2): the accumulated value is
3 7 / 3 7 (each row holds the column sums of G^T), which differs from
G^T = 1 3 / 2 4, so the code does not add the transpose of G. -/
theorem C4_transpose_backward_evaluation :
    MatEq (TransposeNode.backward (zerosMat 2 2)
        (Mat.ofLists ([[1, 2], [3, 4]] : List (List ℤ))))
      (Mat.ofLists [[3, 7], [3, 7]]) ∧
    ¬ MatEq (TransposeNode.backward (zerosMat 2 2)
        (Mat.ofLists ([[1, 2], [3, 4]] : List (List ℤ))))
      (transposeMat (Mat.ofLists [[1, 2], [3, 4]])) := by
  constructor
  · decide
  · decide

/-- `TimesNode::Validate` (LinearAlgebraNodes.h, lines 434-464): returns the
output shape `(rows0, cols1)` together with the (possibly inferred) final
dimensions of both children.  `mb0`/`mb1` indicate whether each input
carries a minibatch layout. -/
def TimesNode.validate (rows0 cols0 : Nat) (mb0 : Bool) (rows1 cols1 : Nat)
    (mb1 : Bool) (final : Bool) :
    Except String ((Nat × Nat) × (Nat × Nat) × (Nat × Nat)) :=
  if final = true ∧ (rows0 = 0 ∨ (cols1 = 0 ∧ mb1 = false)) then
    .error "RuntimeError: Times operation: Inputs(0)->GetNumRows() and Inputs(1)->GetNumCols() should not be 0 since it cannot be automatically inferred"
  -- the final column count of input 0 (inferred as rows1 in the final pass when
  -- unresolved and input 0 has no layout) and the final row count of input 1
  -- (inferred as cols0 when unresolved) feed the inner-dimension check
  else if final = true ∧
      (if cols0 ≠ 0 ∧ rows1 = 0 then cols0 else rows1) ≠
        (if cols0 = 0 ∧ mb0 = false ∧ rows1 ≠ 0 ∧ final = true then rows1 else cols0) then
    .error "LogicError: The inner matrix dimension in the Times operation does not match"
  else if final = true ∧ mb0 = true then
    .error "InvalidArgument: Times operation requires the first factor to not be minibatch data"
  else
    .ok ((rows0, cols1),
      (rows0, if cols0 = 0 ∧ mb0 = false ∧ rows1 ≠ 0 ∧ final = true then rows1 else cols0),
      ((if cols0 ≠ 0 ∧ rows1 = 0 then cols0 else rows1), cols1))

/-- Claim C5: in the final pass, Times's Validate fails fatally whenever
input 0 carries a minibatch layout; when it does not, an unresolved column
count of input 0 is inferred from input 1's row count, an unresolved row
count of input 1 is inferred from input 0's column count, the (inferred)
inner dimensions must match or Validate fails, and on success the output
shape is rows(A) by cols(B). -/
theorem C5_times_validate_final :
    ∀ (rows0 cols0 : Nat) (mb0 : Bool) (rows1 cols1 : Nat) (mb1 : Bool),
      (mb0 = true →
        ∃ e, TimesNode.validate rows0 cols0 mb0 rows1 cols1 mb1 true = .error e) ∧
      (mb0 = false → rows0 ≠ 0 → ¬(cols1 = 0 ∧ mb1 = false) →
        ((if cols0 = 0 ∧ rows1 ≠ 0 then rows1 else cols0) =
            (if cols0 ≠ 0 ∧ rows1 = 0 then cols0 else rows1) →
          TimesNode.validate rows0 cols0 false rows1 cols1 mb1 true =
            .ok ((rows0, cols1),
              (rows0, if cols0 = 0 ∧ rows1 ≠ 0 then rows1 else cols0),
              ((if cols0 ≠ 0 ∧ rows1 = 0 then cols0 else rows1), cols1)) ) ∧
        ((if cols0 = 0 ∧ rows1 ≠ 0 then rows1 else cols0) ≠
            (if cols0 ≠ 0 ∧ rows1 = 0 then cols0 else rows1) →
          ∃ e, TimesNode.validate rows0 cols0 false rows1 cols1 mb1 true = .error e)) := by
  intro rows0 cols0 mb0 rows1 cols1 mb1
  constructor
  · intro hmb
    subst hmb
    rw [TimesNode.validate]
    by_cases h0 : rows0 = 0 ∨ (cols1 = 0 ∧ mb1 = false)
    · rw [if_pos ⟨rfl, h0⟩]
      exact ⟨_, rfl⟩
    · rw [if_neg (fun h => h0 h.2)]
      by_cases h2 : (if cols0 ≠ 0 ∧ rows1 = 0 then cols0 else rows1) ≠
          (if cols0 = 0 ∧ true = false ∧ rows1 ≠ 0 ∧ true = true then rows1 else cols0)
      · rw [if_pos ⟨rfl, h2⟩]
        exact ⟨_, rfl⟩
      · rw [if_neg (fun h => h2 h.2), if_pos ⟨rfl, rfl⟩]
        exact ⟨_, rfl⟩
  · intro hmb hr0 hc1
    have hna : ¬ (true = true ∧ (rows0 = 0 ∨ (cols1 = 0 ∧ mb1 = false))) := by
      rintro ⟨-, h | h⟩
      · exact hr0 h
      · exact hc1 h
    have e0 : (if cols0 = 0 ∧ false = false ∧ rows1 ≠ 0 ∧ true = true
        then rows1 else cols0) = (if cols0 = 0 ∧ rows1 ≠ 0 then rows1 else cols0) := by
      by_cases hc0 : cols0 = 0 ∧ rows1 ≠ 0
      · rw [if_pos ⟨hc0.1, rfl, hc0.2, rfl⟩, if_pos hc0]
      · rw [if_neg (fun h => hc0 ⟨h.1, h.2.2.1⟩), if_neg hc0]
    constructor
    · intro hinner
      rw [TimesNode.validate, if_neg hna, e0]
      rw [if_neg (fun h => h.2 hinner.symm), if_neg (fun h => Bool.false_ne_true h.2)]
    · intro hinner
      rw [TimesNode.validate, if_neg hna, e0]
      rw [if_pos ⟨rfl, fun h => hinner h.symm⟩]
      exact ⟨_, rfl⟩

/-- Claim C5 witness: a layout-bearing left factor fails, and a 3x0 left
factor has its column count inferred from the right factor's 4 rows,
producing a 3x5 output. -/
theorem C5_times_validate_final_witness :
    (∃ e, TimesNode.validate 3 4 true 4 5 false true = .error e) ∧
    TimesNode.validate 3 0 false 4 5 false true =
      .ok ((3, 5), (3, 4), (4, 5)) := by
  constructor
  · exact (C5_times_validate_final 3 4 true 4 5 false).1 rfl
  · have h := ((C5_times_validate_final 3 0 false 4 5 false).2 rfl
      (by decide) (by decide)).1 (by decide)
    simpa using h

/-- Summing the constant-zero function gives zero. -/
theorem sumUpTo_const_zero (m : Nat) : sumUpTo m (fun _ => (0 : α)) = 0 := by
  induction m with
  | zero => rfl
  | succ n ih => rw [sumUpTo, ih, add_zero]

/-- `sumUpTo` distributes over pointwise addition. -/
theorem sumUpTo_add_fun (m : Nat) (g h : Nat → α) :
    sumUpTo m (fun j => g j + h j) = sumUpTo m g + sumUpTo m h := by
  induction m with
  | zero => rw [sumUpTo, sumUpTo, sumUpTo, add_zero]
  | succ n ih =>
    rw [sumUpTo, ih, sumUpTo, sumUpTo]
    ring

/-- Double sums commute. -/
theorem sumUpTo_swap (n m : Nat) (f : Nat → Nat → α) :
    sumUpTo n (fun i => sumUpTo m (fun j => f i j)) =
      sumUpTo m (fun j => sumUpTo n (fun i => f i j)) := by
  induction n with
  | zero => exact (sumUpTo_const_zero m).symm
  | succ n ih =>
    rw [sumUpTo, ih, ← sumUpTo_add_fun]
    rfl

/-- Sums agree when the summands agree below the bound. -/
theorem sumUpTo_congr_below (m : Nat) (g h : Nat → α)
    (he : ∀ j < m, g j = h j) : sumUpTo m g = sumUpTo m h := by
  induction m with
  | zero => rfl
  | succ n ih =>
    rw [sumUpTo, sumUpTo, ih (fun j hj => he j (Nat.lt_succ_of_lt hj)),
      he n (Nat.lt_succ_self n)]

/-- `RowElementTimesNode::Validate` (LinearAlgebraNodes.h, lines 809-821).
The dimension check is written
`if (isFinalValidationPass && cols0 != cols1 || rows1 != 1)`, which by C++
operator precedence parses as
`(isFinalValidationPass && cols0 != cols1) || (rows1 != 1)`. -/
def RowElementTimesNode.validate (final : Bool) (rows0 cols0 rows1 cols1 : Nat) :
    Except String (Nat × Nat) :=
  if (final = true ∧ cols0 ≠ cols1) ∨ rows1 ≠ 1 then
    .error "LogicError: RowElementTimes: Either the second operand is not a row vector or the number of columns of operands does not match."
  else
    .ok (rows0, cols0)

/-- `ColumnElementTimesNode::Validate` (LinearAlgebraNodes.h, lines 955-975):
the analogous check is correctly guarded by the final pass; zero dimensions
are first inferred from the peer operand. -/
def ColumnElementTimesNode.validate (final : Bool) (rows0 cols0 rows1 cols1 : Nat) :
    Except String (Nat × Nat) :=
  -- derive number of rows if possible (index 0 then index 1, sequentially)
  let rows0a := if rows0 = 0 then rows1 else rows0
  let cols0a := if cols0 = 0 then cols1 else cols0
  let rows1a := if rows1 = 0 then rows0a else rows1
  let cols1a := if cols1 = 0 then cols0a else cols1
  if final = true ∧ (rows0a ≠ rows1a ∨ cols1a ≠ 1) then
    .error "LogicError: ColumnElementTimes: Either the second operand is not a column vector or the number of rows of operands does not match."
  else
    .ok (rows0a, cols0a)

/-- Claim C7: the claim says no binary node raises a dimension-mismatch
error in a non-final Validate pass.  Evaluating the code: RowElementTimes's
Validate with isFinalPass = false and a 2x4 second operand (row count not 1)
raises the LogicError anyway, because the rows1 != 1 test sits outside the
isFinalValidationPass guard (a C++ operator-precedence slip); the sibling
ColumnElementTimes check, correctly parenthesised, returns without error on
the analogous non-final mismatch. -/
theorem C7_rowElementTimes_validate_nonfinal_error :
    RowElementTimesNode.validate false 3 4 2 4 =
      .error "LogicError: RowElementTimes: Either the second operand is not a row vector or the number of columns of operands does not match." ∧
    ColumnElementTimesNode.validate false 3 4 2 4 = .ok (3, 4) := by
  constructor
  · rfl
  · rfl

/-- `SumElementsNode::EvaluateThisNode` (LinearAlgebraNodes.h, lines
1201-1210): the input slice is masked (gap columns zeroed) and all elements
are summed into the 1x1 output. -/
def SumElementsNode.evaluate (input : Mat α) (valid : Nat → Bool) : Mat α :=
  ⟨1, 1, fun _ _ => matSum (maskCols input valid)⟩

/-- `SumElementsNode::Validate` (LinearAlgebraNodes.h, lines 1217-1224):
`Resize(1, 1)` and `m_pMBLayout = nullptr` — the result is the output shape
paired with the node's minibatch layout (always `none`). -/
def SumElementsNode.validate (inputRows inputCols : Nat)
    (inputLayout : Option Unit) : (Nat × Nat) × Option Unit :=
  ((1, 1), none)

/-- `SumElementsNode::ComputeInputPartial` (LinearAlgebraNodes.h, lines
1180-1189): `sliceInputGrad += sliceOutputGrad` under the stated assumption
that the output gradient is a 1x1 matrix.  Modelled from the spec: the
Matrix `operator+=` with a 1x1 right-hand side (outside src/) broadcasts the
scalar additively to every element. -/
def SumElementsNode.backward (inputGrad G : Mat α) : Mat α :=
  ⟨inputGrad.rows, inputGrad.cols, fun i j => inputGrad.entry i j + G.entry 0 0⟩

/-- Claim C8: SumElements's Evaluate produces a 1x1 output equal to the sum
of the input taken after masking padding columns to zero, so each padded
column contributes nothing (the value is the sum of the per-column sums of
the valid columns only); after Validate the node's output is 1x1 with no
minibatch layout; and its ComputeGradient adds the single output-gradient
value to every element of the input's gradient slice. -/
theorem C8_sumElements :
    ∀ (input : Mat α) (valid : Nat → Bool) (r c : Nat) (mb : Option Unit)
      (inputGrad G : Mat α),
      (SumElementsNode.evaluate input valid).rows = 1 ∧
      (SumElementsNode.evaluate input valid).cols = 1 ∧
      (SumElementsNode.evaluate input valid).entry 0 0 =
        sumUpTo input.cols (fun j =>
          if valid j then sumUpTo input.rows (fun i => input.entry i j) else 0) ∧
      SumElementsNode.validate r c mb = ((1, 1), none) ∧
      (SumElementsNode.backward inputGrad G).rows = inputGrad.rows ∧
      (SumElementsNode.backward inputGrad G).cols = inputGrad.cols ∧
      ∀ i j, (SumElementsNode.backward inputGrad G).entry i j =
        inputGrad.entry i j + G.entry 0 0 := by
  intro input valid r c mb inputGrad G
  refine ⟨rfl, rfl, ?_, rfl, rfl, rfl, fun i j => rfl⟩
  show matSum (maskCols input valid) = _
  rw [matSum]
  rw [show (maskCols input valid).rows = input.rows from rfl,
    show (maskCols input valid).cols = input.cols from rfl, sumUpTo_swap]
  congr 1
  funext j
  by_cases hv : valid j
  · simp only [maskCols, hv, if_true]
  · simp only [maskCols, hv, if_false, Bool.false_eq_true]
    exact sumUpTo_const_zero _

/-- The scratch matrices a node leases from the MatrixPool
(`RequestMatrixFromPool` / `ReleaseMatrixToPool` member fields). -/
inductive ScratchId where
  | tempMatrix
  | innerproduct
  | rightGradient
  | invNorm0
  | invNorm1
  | leftTerm
  | rightTerm
  | temp
  | invNormSquare
deriving DecidableEq, Fintype

/-- The node kinds of the catalogue that lease scratch matrices from the
pool. -/
inductive PoolNodeKind where
  | rowElementTimes
  | columnElementTimes
  | diagTimes
  | cosDistance
  | cosDistanceWithNegativeSamples
deriving DecidableEq, Fintype

/-- Scratch matrices requested in `RequestMatricesBeforeEval` (beyond the
base class): CosDistance (lines 1725-1730) and
CosDistanceWithNegativeSamples (lines 2095-2102); the other pool-using
nodes request nothing before evaluation. -/
def requestMatricesBeforeEval : PoolNodeKind → List ScratchId
  | .rowElementTimes => []
  | .columnElementTimes => []
  | .diagTimes => []
  | .cosDistance => [.invNorm0, .invNorm1]
  | .cosDistanceWithNegativeSamples => [.invNorm0, .invNorm1, .leftTerm, .rightTerm]

/-- Scratch matrices requested in `RequestMatricesBeforeGradientComp`:
RowElementTimes (lines 836-840), ColumnElementTimes (lines 990-994),
DiagTimes (lines 1137-1142), CosDistance (lines 1733-1739),
CosDistanceWithNegativeSamples (lines 2105-2110). -/
def requestMatricesBeforeGradientComp : PoolNodeKind → List ScratchId
  | .rowElementTimes => [.tempMatrix]
  | .columnElementTimes => [.tempMatrix]
  | .diagTimes => [.innerproduct, .rightGradient]
  | .cosDistance => [.leftTerm, .rightTerm, .temp]
  | .cosDistanceWithNegativeSamples => [.invNormSquare, .temp]

/-- Scratch matrices released in `ReleaseMatricesAfterGradientComp`:
RowElementTimes (lines 843-847), ColumnElementTimes (lines 997-1001),
DiagTimes (lines 1145-1150), CosDistance (lines 1742-1750),
CosDistanceWithNegativeSamples (lines 2113-2122). -/
def releaseMatricesAfterGradientComp : PoolNodeKind → List ScratchId
  | .rowElementTimes => [.tempMatrix]
  | .columnElementTimes => [.tempMatrix]
  | .diagTimes => [.innerproduct, .rightGradient]
  | .cosDistance => [.invNorm0, .invNorm1, .leftTerm, .rightTerm, .temp]
  | .cosDistanceWithNegativeSamples =>
      [.invNorm0, .invNorm1, .leftTerm, .rightTerm, .invNormSquare, .temp]

/-- Claim C10: for every pool-using node kind, the scratch matrices released
after gradient computation are exactly the ones requested before evaluation
plus the ones requested before gradient computation (same multiset), and the
request lists have no duplicates — so each requested scratch matrix is
released exactly once and no lease remains outstanding after one full
forward-plus-backward pass. -/
theorem C10_scratch_pool_balanced :
    ∀ (k : PoolNodeKind) (s : ScratchId),
      (releaseMatricesAfterGradientComp k).count s =
        (requestMatricesBeforeEval k ++ requestMatricesBeforeGradientComp k).count s ∧
      (requestMatricesBeforeEval k ++ requestMatricesBeforeGradientComp k).Nodup ∧
      (releaseMatricesAfterGradientComp k).Nodup := by
  decide

/-- `Matrix::AssignVectorNorm2Of(in, true)`: the per-column L2 norms as a
1-by-cols row vector.  The square root of the float element type is an
external numeric primitive; it is modelled as an explicit function
`sqrtFn` applied to the per-column sum of squares (both cosine nodes apply
the identical primitive). -/
def assignVectorNorm2Of (sqrtFn : α → α) (A : Mat α) : Mat α :=
  ⟨1, A.cols, fun _ j => sqrtFn (sumUpTo A.rows (fun i => A.entry i j * A.entry i j))⟩

/-- `Matrix::AssignElementInverseOf`: the elementwise reciprocal, modelled
as an explicit function `invFn` applied to each entry (the float reciprocal
is an external numeric primitive; both cosine nodes apply the identical
primitive). -/
def assignElementInverseOf (invFn : α → α) (A : Mat α) : Mat α :=
  ⟨A.rows, A.cols, fun i j => invFn (A.entry i j)⟩

/-- `Matrix::AssignInnerProductOf(a, b, true)`: per-column inner products as
a 1-by-cols row vector. -/
def assignInnerProductOfColwise (a b : Mat α) : Mat α :=
  ⟨1, a.cols, fun _ j => sumUpTo a.rows (fun i => a.entry i j * b.entry i j)⟩

/-- `Matrix::ElementMultiplyWith`: elementwise product of equal-shaped
matrices. -/
def elementMultiplyWith (A B : Mat α) : Mat α :=
  ⟨A.rows, A.cols, fun i j => A.entry i j * B.entry i j⟩

/-- `CosDistanceNode::EvaluateThisNodeS` (LinearAlgebraNodes.h, lines
1649-1660): per-column cosine similarity — the per-column inner product
multiplied elementwise by both per-column inverse norms. -/
def CosDistanceNode.evaluateS (sqrtFn invFn : α → α) (in0 in1 : Mat α) : Mat α :=
  elementMultiplyWith
    (elementMultiplyWith (assignInnerProductOfColwise in0 in1)
      (assignElementInverseOf invFn (assignVectorNorm2Of sqrtFn in0)))
    (assignElementInverseOf invFn (assignVectorNorm2Of sqrtFn in1))

/-- Modelled from the spec: `Matrix::AssignElementProductOfWithShiftNeg`
(Math library, outside src/) — the (negNumber+1)-by-cols matrix whose row 0
pairs column j of both row vectors, and whose row m (m at least 1) pairs
column j of the first with column (j + shift + m - 1) mod cols of the
second (spec section 4.4). -/
def assignElementProductOfWithShiftNeg (a b : Mat α) (shift negNumber : Nat) :
    Mat α :=
  ⟨negNumber + 1, a.cols, fun m j =>
    a.entry 0 j * b.entry 0 (if m = 0 then j else (j + shift + m - 1) % a.cols)⟩

/-- Modelled from the spec: `Matrix::AssignInnerProductOfWithShiftNeg`
(Math library, outside src/) — the (negNumber+1)-by-cols matrix of
per-column inner products with the same circular column shift applied to
the second operand (spec section 4.4). -/
def assignInnerProductOfWithShiftNeg (a b : Mat α) (shift negNumber : Nat) :
    Mat α :=
  ⟨negNumber + 1, a.cols, fun m j =>
    sumUpTo a.rows (fun i =>
      a.entry i j * b.entry i (if m = 0 then j else (j + shift + m - 1) % a.cols))⟩

/-- `CosDistanceWithNegativeSamplesNode::EvaluateThisNodeS`
(LinearAlgebraNodes.h, lines 2006-2028): the elementwise product of the
shifted inverse-norm products and the shifted per-column inner products.
`shift` and `negNumber` are the values read via `Get00Element()` from the
1x1 third and fourth inputs. -/
def CosDistanceWithNegativeSamplesNode.evaluateS (sqrtFn invFn : α → α)
    (in0 in1 : Mat α) (shift negNumber : Nat) : Mat α :=
  elementMultiplyWith
    (assignElementProductOfWithShiftNeg
      (assignElementInverseOf invFn (assignVectorNorm2Of sqrtFn in0))
      (assignElementInverseOf invFn (assignVectorNorm2Of sqrtFn in1))
      shift negNumber)
    (assignInnerProductOfWithShiftNeg in0 in1 shift negNumber)

/-- Claim C2: for equal-shaped inputs A and B, with the shift input holding
0 and the negCount input holding 0, the single output row of
CosDistanceWithNegativeSamples's Evaluate equals, column for column, the
1-by-numCols output of CosDistance's Evaluate on the same A and B (the
per-column inner product times the two per-column inverse L2 norms),
whatever the numeric square-root and reciprocal primitives compute. -/
theorem C2_cosDistanceWithNeg_zero_refines_cosDistance :
    ∀ (sqrtFn invFn : α → α) (A B : Mat α),
      A.rows = B.rows → A.cols = B.cols →
      (CosDistanceWithNegativeSamplesNode.evaluateS sqrtFn invFn A B 0 0).rows = 1 ∧
      (CosDistanceWithNegativeSamplesNode.evaluateS sqrtFn invFn A B 0 0).cols =
        (CosDistanceNode.evaluateS sqrtFn invFn A B).cols ∧
      ∀ j < (CosDistanceNode.evaluateS sqrtFn invFn A B).cols,
        (CosDistanceWithNegativeSamplesNode.evaluateS sqrtFn invFn A B 0 0).entry 0 j =
          (CosDistanceNode.evaluateS sqrtFn invFn A B).entry 0 j := by
  intro sqrtFn invFn A B hr hc
  refine ⟨rfl, rfl, ?_⟩
  intro j hj
  simp only [CosDistanceWithNegativeSamplesNode.evaluateS, CosDistanceNode.evaluateS,
    elementMultiplyWith, assignElementProductOfWithShiftNeg,
    assignInnerProductOfWithShiftNeg, assignInnerProductOfColwise,
    assignElementInverseOf, assignVectorNorm2Of, if_pos rfl, if_true]
  ring

/-- Claim C2 witness: the refinement applied to concrete 2x2 inputs with the
identity standing in for the square-root and reciprocal primitives. -/
theorem C2_cosDistanceWithNeg_zero_refines_cosDistance_witness :
    (CosDistanceWithNegativeSamplesNode.evaluateS (fun x => x) (fun x => x)
        (Mat.ofLists ([[1, 2], [3, 4]] : List (List ℤ)))
        (Mat.ofLists [[5, 6], [7, 8]]) 0 0).rows = 1 ∧
    (CosDistanceWithNegativeSamplesNode.evaluateS (fun x => x) (fun x => x)
        (Mat.ofLists ([[1, 2], [3, 4]] : List (List ℤ)))
        (Mat.ofLists [[5, 6], [7, 8]]) 0 0).cols =
      (CosDistanceNode.evaluateS (fun x => x) (fun x => x)
        (Mat.ofLists ([[1, 2], [3, 4]] : List (List ℤ)))
        (Mat.ofLists [[5, 6], [7, 8]])).cols ∧
    ∀ j < (CosDistanceNode.evaluateS (fun x => x) (fun x => x)
        (Mat.ofLists ([[1, 2], [3, 4]] : List (List ℤ)))
        (Mat.ofLists [[5, 6], [7, 8]])).cols,
      (CosDistanceWithNegativeSamplesNode.evaluateS (fun x => x) (fun x => x)
          (Mat.ofLists ([[1, 2], [3, 4]] : List (List ℤ)))
          (Mat.ofLists [[5, 6], [7, 8]]) 0 0).entry 0 j =
        (CosDistanceNode.evaluateS (fun x => x) (fun x => x)
          (Mat.ofLists ([[1, 2], [3, 4]] : List (List ℤ)))
          (Mat.ofLists [[5, 6], [7, 8]])).entry 0 j :=
  C2_cosDistanceWithNeg_zero_refines_cosDistance _ _ _ _ (by decide) (by decide)

/-- Run `f` on loop indices `n-1, ..., 1, 0` applied innermost-first: the
shallow rendering of a C++ `for (size_t i = 0; i < n; i++)` loop whose body
updates an accumulator. -/
def iterUpdate (n : Nat) (f : Nat → Mat α → Mat α) (M : Mat α) : Mat α :=
  match n with
  | 0 => M
  | n+1 => f n (iterUpdate n f M)

/-- Add the vector `v` into column `c` of `M`
(`M.ColumnSlice(c, 1) += v`). -/
def addToCol (M : Mat α) (c : Nat) (v : Nat → α) : Mat α :=
  ⟨M.rows, M.cols, fun i j => if j = c then M.entry i j + v i else M.entry i j⟩

/-- Add the vector `v` into row `r` of `M`
(`M.AddToRowSliceValuesOf(v, r, 1)`). -/
def addToRow (M : Mat α) (r : Nat) (v : Nat → α) : Mat α :=
  ⟨M.rows, M.cols, fun i j => if i = r then M.entry i j + v j else M.entry i j⟩

/-- Entry of a single per-column addition. -/
theorem addToCol_entry (M : Mat α) (c : Nat) (v : Nat → α) (p q : Nat) :
    (addToCol M c v).entry p q =
      if q = c then M.entry p q + v p else M.entry p q := rfl

/-- Entry of a single per-row addition. -/
theorem addToRow_entry (M : Mat α) (r : Nat) (v : Nat → α) (p q : Nat) :
    (addToRow M r v).entry p q =
      if p = r then M.entry p q + v q else M.entry p q := rfl

/-- Entry of a loop of per-column additions: column `c` receives the sum of
the contributions of the iterations whose target column `g t` equals `c`. -/
theorem iterUpdate_addToCol_entry (n : Nat) (g : Nat → Nat) (v : Nat → Nat → α)
    (M : Mat α) (p c : Nat) :
    (iterUpdate n (fun t M2 => addToCol M2 (g t) (v t)) M).entry p c =
      M.entry p c + sumUpTo n (fun t => if c = g t then v t p else 0) := by
  induction n with
  | zero => rw [iterUpdate, sumUpTo, add_zero]
  | succ n ih =>
    show (addToCol (iterUpdate n (fun t M2 => addToCol M2 (g t) (v t)) M)
      (g n) (v n)).entry p c = _
    rw [addToCol_entry, sumUpTo]
    by_cases h : c = g n
    · rw [if_pos h, if_pos h, ih]
      ring
    · rw [if_neg h, if_neg h, ih, add_zero]

/-- A loop of per-column additions preserves the dimensions. -/
theorem iterUpdate_addToCol_dims (n : Nat) (g : Nat → Nat) (v : Nat → Nat → α)
    (M : Mat α) :
    (iterUpdate n (fun t M2 => addToCol M2 (g t) (v t)) M).rows = M.rows ∧
    (iterUpdate n (fun t M2 => addToCol M2 (g t) (v t)) M).cols = M.cols := by
  induction n with
  | zero => exact ⟨rfl, rfl⟩
  | succ n ih => exact ih

/-- Entry of a loop of per-row additions. -/
theorem iterUpdate_addToRow_entry (n : Nat) (g : Nat → Nat) (v : Nat → Nat → α)
    (M : Mat α) (p c : Nat) :
    (iterUpdate n (fun t M2 => addToRow M2 (g t) (v t)) M).entry p c =
      M.entry p c + sumUpTo n (fun t => if p = g t then v t c else 0) := by
  induction n with
  | zero => rw [iterUpdate, sumUpTo, add_zero]
  | succ n ih =>
    show (addToRow (iterUpdate n (fun t M2 => addToRow M2 (g t) (v t)) M)
      (g n) (v n)).entry p c = _
    rw [addToRow_entry, sumUpTo]
    by_cases h : p = g n
    · rw [if_pos h, if_pos h, ih]
      ring
    · rw [if_neg h, if_neg h, ih, add_zero]

/-- A loop of per-row additions preserves the dimensions. -/
theorem iterUpdate_addToRow_dims (n : Nat) (g : Nat → Nat) (v : Nat → Nat → α)
    (M : Mat α) :
    (iterUpdate n (fun t M2 => addToRow M2 (g t) (v t)) M).rows = M.rows ∧
    (iterUpdate n (fun t M2 => addToRow M2 (g t) (v t)) M).cols = M.cols := by
  induction n with
  | zero => exact ⟨rfl, rfl⟩
  | succ n ih => exact ih

/-- `StrideTimesNode::ComputeInputPartial`, column-stride left derivative
(LinearAlgebraNodes.h, lines 2192-2216): per parallel sequence `k`, the
outer product `G.col(k) * B.col(k)^T` is redistributed: its column `t` is
added into column `t * numPar + k` of the left input's gradient. -/
def StrideTimesNode.colStrideLeftGrad (numPar T1 : Nat) (B G Agrad : Mat α) :
    Mat α :=
  iterUpdate numPar (fun k M =>
    iterUpdate T1 (fun t M2 =>
      addToCol M2 (t * numPar + k)
        (fun i => (matMul (colSlice G k 1) (transposeMat (colSlice B k 1))).entry i t))
      M)
    Agrad

/-- `StrideTimesNode::ComputeInputPartial`, column-stride right derivative
(LinearAlgebraNodes.h, lines 2217-2238): per parallel sequence `k`, the
strided columns `t * numPar + k` of A are gathered into `mTmp1` and
`mTmp1^T * G.col(k)` is added into column `k` of the right input's
gradient. -/
def StrideTimesNode.colStrideRightGrad (numPar T1 r : Nat) (A G Bgrad : Mat α) :
    Mat α :=
  iterUpdate numPar (fun k M =>
    addToCol M k
      (fun t => (matMul
        (transposeMat (⟨r, T1, fun i t2 => A.entry i (t2 * numPar + k)⟩ : Mat α))
        (colSlice G k 1)).entry t 0))
    Bgrad

/-- `StrideTimesNode::ComputeInputPartial`, row-stride left derivative
(LinearAlgebraNodes.h, lines 2242-2264): per parallel sequence `k`, column
`t` of `B.col(k) * G.col(k)^T` is added into row `t * numPar + k` of the
left input's gradient. -/
def StrideTimesNode.rowStrideLeftGrad (numPar T1 : Nat) (B G Agrad : Mat α) :
    Mat α :=
  iterUpdate numPar (fun k M =>
    iterUpdate T1 (fun t M2 =>
      addToRow M2 (t * numPar + k)
        (fun j => (matMul (colSlice B k 1) (transposeMat (colSlice G k 1))).entry j t))
      M)
    Agrad

/-- `StrideTimesNode::ComputeInputPartial`, row-stride right derivative
(LinearAlgebraNodes.h, lines 2265-2290): per parallel sequence `k`, the
strided rows `t * numPar + k` of A are gathered into `mTmp1` and
`mTmp1^T * G.col(k)` is added into column `k` of the right input's
gradient. -/
def StrideTimesNode.rowStrideRightGrad (numPar T1 : Nat) (A G Bgrad : Mat α) :
    Mat α :=
  iterUpdate numPar (fun k M =>
    addToCol M k
      (fun j => (matMul
        (transposeMat (⟨T1, A.cols, fun t j2 => A.entry (t * numPar + k) j2⟩ : Mat α))
        (colSlice G k 1)).entry j 0))
    Bgrad

/-- `StrideTimesNode::ComputeInputPartial` (LinearAlgebraNodes.h, lines
2180-2292): the entry dispatch.  `NOT_IMPLEMENTED` is raised first whenever
the frame range is the whole sequence (`frameRange.IsAllFrames()`); input 2
(the stride selector) is a constant and receives no gradient; otherwise the
column-stride or row-stride redistribution runs over the single-frame
slices.  `A`, `B`, `G` are the left input values, the right input value
slice and the output gradient slice; `numPar` is `GetNumParallelSequences()`
and `T1` is derived as in the source. -/
def StrideTimesNode.backward (inputIndex : Nat) (isAllFrames : Bool)
    (strideDim numPar : Nat) (A B G Agrad Bgrad : Mat α) :
    Except String (Mat α × Mat α) :=
  if isAllFrames = true then
    .error "NOT_IMPLEMENTED"
  else if inputIndex > 2 then
    .error "InvalidArgument: StrideTimes operation only takes three inputs."
  else if inputIndex = 2 then
    .ok (Agrad, Bgrad)
  else if strideDim = 1 then
    if inputIndex = 0 then
      .ok (StrideTimesNode.colStrideLeftGrad numPar (A.cols / numPar) B G Agrad, Bgrad)
    else
      .ok (Agrad, StrideTimesNode.colStrideRightGrad numPar (A.cols / numPar) A.rows A G Bgrad)
  else if strideDim = 0 then
    if inputIndex = 0 then
      .ok (StrideTimesNode.rowStrideLeftGrad numPar (A.rows / numPar) B G Agrad, Bgrad)
    else
      .ok (Agrad, StrideTimesNode.rowStrideRightGrad numPar (A.rows / numPar) A G Bgrad)
  else
    .ok (Agrad, Bgrad)

/-- The error message of a failed gradient computation returning a pair of
updated gradients, if any. -/
def errMsgPair (r : Except String (Mat α × Mat α)) : Option String :=
  match r with
  | .ok _ => none
  | .error e => some e

/-- Whether a gradient computation returning a pair completed without
error. -/
def isOkPair (r : Except String (Mat α × Mat α)) : Bool :=
  match r with
  | .ok _ => true
  | .error _ => false

/-- Entry of the per-sequence/per-step double loop of column additions:
the targets `t * S + k` are hit once per pair `(k, t)`. -/
theorem double_loop_addToCol_entry (n T1 S : Nat) (w : Nat → Nat → Nat → α)
    (M : Mat α) (p c : Nat) :
    (iterUpdate n (fun k M2 =>
        iterUpdate T1 (fun t M3 => addToCol M3 (t * S + k) (fun i => w k t i)) M2)
      M).entry p c =
      M.entry p c + sumUpTo n (fun k => sumUpTo T1 (fun t =>
        if c = t * S + k then w k t p else 0)) := by
  induction n with
  | zero => rw [iterUpdate, sumUpTo, add_zero]
  | succ n ih =>
    have h2 : (iterUpdate n (fun k M2 =>
          iterUpdate T1 (fun t M3 => addToCol M3 (t * S + k) (fun i => w k t i)) M2)
        M).entry p c +
        sumUpTo T1 (fun t => if c = t * S + n then w n t p else 0) =
        M.entry p c + sumUpTo (n + 1) (fun k => sumUpTo T1 (fun t =>
          if c = t * S + k then w k t p else 0)) := by
      rw [ih, sumUpTo]
      ring
    exact (iterUpdate_addToCol_entry T1 (fun t => t * S + n)
      (fun t i => w n t i) _ p c).trans h2

/-- Entry of the per-sequence/per-step double loop of row additions. -/
theorem double_loop_addToRow_entry (n T1 S : Nat) (w : Nat → Nat → Nat → α)
    (M : Mat α) (p c : Nat) :
    (iterUpdate n (fun k M2 =>
        iterUpdate T1 (fun t M3 => addToRow M3 (t * S + k) (fun j => w k t j)) M2)
      M).entry p c =
      M.entry p c + sumUpTo n (fun k => sumUpTo T1 (fun t =>
        if p = t * S + k then w k t c else 0)) := by
  induction n with
  | zero => rw [iterUpdate, sumUpTo, add_zero]
  | succ n ih =>
    have h2 : (iterUpdate n (fun k M2 =>
          iterUpdate T1 (fun t M3 => addToRow M3 (t * S + k) (fun j => w k t j)) M2)
        M).entry p c +
        sumUpTo T1 (fun t => if p = t * S + n then w n t c else 0) =
        M.entry p c + sumUpTo (n + 1) (fun k => sumUpTo T1 (fun t =>
          if p = t * S + k then w k t c else 0)) := by
      rw [ih, sumUpTo]
      ring
    exact (iterUpdate_addToRow_entry T1 (fun t => t * S + n)
      (fun t j => w n t j) _ p c).trans h2

/-- The double column-addition loop preserves dimensions. -/
theorem double_loop_addToCol_dims (n T1 S : Nat) (w : Nat → Nat → Nat → α)
    (M : Mat α) :
    (iterUpdate n (fun k M2 =>
        iterUpdate T1 (fun t M3 => addToCol M3 (t * S + k) (fun i => w k t i)) M2)
      M).rows = M.rows ∧
    (iterUpdate n (fun k M2 =>
        iterUpdate T1 (fun t M3 => addToCol M3 (t * S + k) (fun i => w k t i)) M2)
      M).cols = M.cols := by
  induction n with
  | zero => exact ⟨rfl, rfl⟩
  | succ n ih =>
    exact ⟨(iterUpdate_addToCol_dims T1 (fun t => t * S + n)
        (fun t i => w n t i) _).1.trans ih.1,
      (iterUpdate_addToCol_dims T1 (fun t => t * S + n)
        (fun t i => w n t i) _).2.trans ih.2⟩

/-- The double row-addition loop preserves dimensions. -/
theorem double_loop_addToRow_dims (n T1 S : Nat) (w : Nat → Nat → Nat → α)
    (M : Mat α) :
    (iterUpdate n (fun k M2 =>
        iterUpdate T1 (fun t M3 => addToRow M3 (t * S + k) (fun j => w k t j)) M2)
      M).rows = M.rows ∧
    (iterUpdate n (fun k M2 =>
        iterUpdate T1 (fun t M3 => addToRow M3 (t * S + k) (fun j => w k t j)) M2)
      M).cols = M.cols := by
  induction n with
  | zero => exact ⟨rfl, rfl⟩
  | succ n ih =>
    exact ⟨(iterUpdate_addToRow_dims T1 (fun t => t * S + n)
        (fun t j => w n t j) _).1.trans ih.1,
      (iterUpdate_addToRow_dims T1 (fun t => t * S + n)
        (fun t j => w n t j) _).2.trans ih.2⟩

/-- Claim C6 counterexample: invoked in full-sequence (all-frames) mode at a
concrete input, StrideTimes's ComputeGradient raises NOT_IMPLEMENTED, and
the same invocation on a single-frame range runs to completion — the
opposite of the claim, which says full-sequence mode is the only supported
mode. -/
theorem C6_strideTimes_allframes_fatal :
    errMsgPair (StrideTimesNode.backward 0 true 1 1
        (Mat.ofLists ([[1, 2]] : List (List ℤ))) (Mat.ofLists [[1], [1]])
        (Mat.ofLists [[1]]) (Mat.ofLists [[0, 0]]) (Mat.ofLists [[0], [0]])) =
      some "NOT_IMPLEMENTED" ∧
    isOkPair (StrideTimesNode.backward 0 false 1 1
        (Mat.ofLists ([[1, 2]] : List (List ℤ))) (Mat.ofLists [[1], [1]])
        (Mat.ofLists [[1]]) (Mat.ofLists [[0, 0]]) (Mat.ofLists [[0], [0]])) =
      true :=
  ⟨rfl, rfl⟩

/-- Claim C6 (amended): StrideTimes's ComputeGradient fails fatally
(NOT_IMPLEMENTED) whenever it is invoked in full-sequence (all-frames) mode
— that is the unsupported mode — and, when invoked on a single-frame range,
runs to completion for every input index up to 2, redistributing each
output column's gradient back into the strided source columns (column-stride
mode: source column t * numPar + k receives G(p,k) * B(t,k); row-stride
mode: source row t * numPar + k receives B(c,k) * G(t,k)) per parallel
sequence k. -/
theorem C6_strideTimes_backward_modes :
    (∀ (inputIndex strideDim numPar : Nat) (A B G Agrad Bgrad : Mat α),
      StrideTimesNode.backward inputIndex true strideDim numPar A B G Agrad Bgrad =
        .error "NOT_IMPLEMENTED") ∧
    (∀ (inputIndex strideDim numPar : Nat) (A B G Agrad Bgrad : Mat α),
      inputIndex ≤ 2 →
      ∃ pr, StrideTimesNode.backward inputIndex false strideDim numPar A B G Agrad Bgrad =
        .ok pr) ∧
    (∀ (numPar : Nat) (A B G Agrad Bgrad : Mat α),
      ∃ Agrad2, StrideTimesNode.backward 0 false 1 numPar A B G Agrad Bgrad =
        .ok (Agrad2, Bgrad) ∧
        Agrad2.rows = Agrad.rows ∧ Agrad2.cols = Agrad.cols ∧
        ∀ p c, Agrad2.entry p c = Agrad.entry p c +
          sumUpTo numPar (fun k => sumUpTo (A.cols / numPar) (fun t =>
            if c = t * numPar + k then G.entry p k * B.entry t k else 0))) ∧
    (∀ (numPar : Nat) (A B G Agrad Bgrad : Mat α),
      ∃ Agrad2, StrideTimesNode.backward 0 false 0 numPar A B G Agrad Bgrad =
        .ok (Agrad2, Bgrad) ∧
        Agrad2.rows = Agrad.rows ∧ Agrad2.cols = Agrad.cols ∧
        ∀ p c, Agrad2.entry p c = Agrad.entry p c +
          sumUpTo numPar (fun k => sumUpTo (A.rows / numPar) (fun t =>
            if p = t * numPar + k then B.entry c k * G.entry t k else 0))) := by
  refine ⟨fun _ _ _ _ _ _ _ _ => rfl, ?_, ?_, ?_⟩
  · intro inputIndex strideDim numPar A B G Agrad Bgrad hidx
    rw [StrideTimesNode.backward, if_neg (by simp), if_neg (by omega)]
    by_cases h2 : inputIndex = 2
    · rw [if_pos h2]
      exact ⟨_, rfl⟩
    · rw [if_neg h2]
      by_cases hs1 : strideDim = 1
      · rw [if_pos hs1]
        by_cases h0 : inputIndex = 0
        · rw [if_pos h0]; exact ⟨_, rfl⟩
        · rw [if_neg h0]; exact ⟨_, rfl⟩
      · rw [if_neg hs1]
        by_cases hs0 : strideDim = 0
        · rw [if_pos hs0]
          by_cases h0 : inputIndex = 0
          · rw [if_pos h0]; exact ⟨_, rfl⟩
          · rw [if_neg h0]; exact ⟨_, rfl⟩
        · rw [if_neg hs0]; exact ⟨_, rfl⟩
  · intro numPar A B G Agrad Bgrad
    refine ⟨_, rfl, ?_, ?_, ?_⟩
    · exact (double_loop_addToCol_dims numPar (A.cols / numPar) numPar
        (fun k t i => (matMul (colSlice G k 1) (transposeMat (colSlice B k 1))).entry i t)
        Agrad).1
    · exact (double_loop_addToCol_dims numPar (A.cols / numPar) numPar
        (fun k t i => (matMul (colSlice G k 1) (transposeMat (colSlice B k 1))).entry i t)
        Agrad).2
    · intro p c
      have h := double_loop_addToCol_entry numPar (A.cols / numPar) numPar
        (fun k t i => (matMul (colSlice G k 1) (transposeMat (colSlice B k 1))).entry i t)
        Agrad p c
      have hw : ∀ k t,
          (matMul (colSlice G k 1) (transposeMat (colSlice B k 1))).entry p t =
            G.entry p k * B.entry t k := by
        intro k t
        simp [matMul, colSlice, transposeMat, sumUpTo]
      refine h.trans (congrArg (fun x => Agrad.entry p c + x) ?_)
      apply sumUpTo_congr_below
      intro k hk
      apply sumUpTo_congr_below
      intro t ht
      rw [hw k t]
  · intro numPar A B G Agrad Bgrad
    refine ⟨_, rfl, ?_, ?_, ?_⟩
    · exact (double_loop_addToRow_dims numPar (A.rows / numPar) numPar
        (fun k t j => (matMul (colSlice B k 1) (transposeMat (colSlice G k 1))).entry j t)
        Agrad).1
    · exact (double_loop_addToRow_dims numPar (A.rows / numPar) numPar
        (fun k t j => (matMul (colSlice B k 1) (transposeMat (colSlice G k 1))).entry j t)
        Agrad).2
    · intro p c
      have h := double_loop_addToRow_entry numPar (A.rows / numPar) numPar
        (fun k t j => (matMul (colSlice B k 1) (transposeMat (colSlice G k 1))).entry j t)
        Agrad p c
      have hw : ∀ k t,
          (matMul (colSlice B k 1) (transposeMat (colSlice G k 1))).entry c t =
            B.entry c k * G.entry t k := by
        intro k t
        simp [matMul, colSlice, transposeMat, sumUpTo]
      refine h.trans (congrArg (fun x => Agrad.entry p c + x) ?_)
      apply sumUpTo_congr_below
      intro k hk
      apply sumUpTo_congr_below
      intro t ht
      rw [hw k t]

/-- Claim C6 witness: the amended theorem's completion clause applied at a
concrete single-frame invocation of the right derivative. -/
theorem C6_strideTimes_backward_modes_witness :
    ∃ pr, StrideTimesNode.backward 1 false 1 1
        (Mat.ofLists ([[1, 2]] : List (List ℤ))) (Mat.ofLists [[1], [1]])
        (Mat.ofLists [[1]]) (Mat.ofLists [[0, 0]]) (Mat.ofLists [[0], [0]]) =
      .ok pr :=
  C6_strideTimes_backward_modes.2.1 1 1 1 _ _ _ _ _ (by decide)

end CNTK
